import Mathlib

/-!
Shallow embedding of the people-counter pipeline core
(`backend/core/polygon.py`, `backend/core/tracker.py`,
`backend/core/video_stream.py`, and the counter block of
`backend/app/routers/video.py`), with theorems about the tracker's
matching and lifecycle logic, the zone-crossing state machine, the
occupancy counters and the stream start-up path.

Conventions of the embedding:
- Python dicts keyed by track id are association lists in insertion
  order (CPython dicts preserve insertion order; `OrderedDict` likewise).
- Pixel coordinates handled by the tracker are integers (`numpy` int
  arrays in the source); squared Euclidean distances over ℤ stand in for
  the float distances of `scipy.spatial.distance.cdist` /
  `np.linalg.norm`, which is order- and threshold-exact for integer
  inputs (the gates 100 px and 50 px become 10000 and 2500 on squares).
- Polygon coordinates are rationals: `update_polygon` rescales by exact
  ratios where the source uses float division.
- Python exceptions are `Except String`; a function that cannot raise is
  pure.
-/

/-! ## Zone detector: `backend/core/polygon.py` -/

/-- A point in the plane, rational coordinates (the source handles float
coordinates after rescaling). -/
abbrev QPoint : Type := ℚ × ℚ

/-- Per-track previous-membership map `{track_id: was_inside}`, in
insertion order. -/
abbrev StateMap : Type := List (Nat × Bool)

/-- Dict lookup: first binding of the key, if any. -/
def lookupState : StateMap → Nat → Option Bool
  | [], _ => none
  | (k, v) :: rest, tid => if k = tid then some v else lookupState rest tid

/-- Dict write `d[k] = v`: overwrite in place if present, else append. -/
def insertState : StateMap → Nat → Bool → StateMap
  | [], tid, b => [(tid, b)]
  | (k, v) :: rest, tid, b =>
    if k = tid then (k, b) :: rest else (k, v) :: insertState rest tid b

/-- Is `p` on the closed segment from `a` to `b`? (collinear and inside
the bounding box). -/
def onSegment (a b p : QPoint) : Bool :=
  decide ((b.1 - a.1) * (p.2 - a.2) - (p.1 - a.1) * (b.2 - a.2) = 0) &&
  decide (min a.1 b.1 ≤ p.1) && decide (p.1 ≤ max a.1 b.1) &&
  decide (min a.2 b.2 ≤ p.2) && decide (p.2 ≤ max a.2 b.2)

/-- The edges of the closed ring on vertex list `vs` (each vertex to the
next, last back to first). -/
def polygonEdges (vs : List QPoint) : List (QPoint × QPoint) :=
  vs.zip (vs.rotate 1)

/-- `p` lies on the boundary of the polygon with vertex list `vs`. -/
def onBoundary (vs : List QPoint) (p : QPoint) : Bool :=
  (polygonEdges vs).any fun e => onSegment e.1 e.2 p

/-- Does the horizontal ray from `p` to the right cross edge `(a, b)`?
Exact-arithmetic form of the standard crossing test. -/
def rayCrosses (a b p : QPoint) : Bool :=
  (decide (p.2 < a.2) != decide (p.2 < b.2)) &&
  (decide (0 < (b.1 - a.1) * (p.2 - a.2) - (p.1 - a.1) * (b.2 - a.2)) ==
    decide (a.2 < b.2))

/-- Model of the external geometry library's `Polygon.contains(Point)`
(shapely/GEOS): a point is contained iff it lies in the polygon's
interior — by the library's documented `contains` semantics a point on
the boundary is NOT contained.  Implemented as exact point location:
a boundary test on every edge of the ring, then ray-crossing parity. -/
def shapelyContains (vs : List QPoint) (p : QPoint) : Bool :=
  !onBoundary vs p &&
    decide (((polygonEdges vs).filter fun e => rayCrosses e.1 e.2 p).length % 2 = 1)

/-- `PolygonManager` state (`polygon.py`): the three `OrderedDict`-free
fields `coordinates`, `area_name`, `polygon` (the shapely object, present
once ≥ 3 vertices were installed) and `previous_states`. -/
structure PolygonManager where
  coordinates : List QPoint
  area_name : String
  polygon : Option (List QPoint)
  previous_states : StateMap
deriving DecidableEq

/-- `PolygonManager.clear_states`. -/
def PolygonManager.clear_states (pm : PolygonManager) : PolygonManager :=
  { pm with previous_states := [] }

/-- `PolygonManager.update_polygon(coordinates, frame_size, original_size)`:
optionally rescale by `(fw/ow, fh/oh)`, install the shapely polygon when
the coordinate list has ≥ 3 points, and always clear the per-track
states. -/
def PolygonManager.update_polygon (pm : PolygonManager) (coordinates : List QPoint)
    (frame_size original_size : Option (ℚ × ℚ)) : PolygonManager :=
  let newCoords :=
    match frame_size, original_size with
    | some (fw, fh), some (ow, oh) =>
      if 0 < ow ∧ 0 < oh then
        coordinates.map fun c => (c.1 * (fw / ow), c.2 * (fh / oh))
      else coordinates
    | _, _ => coordinates
  let newPolygon := if 3 ≤ newCoords.length then some newCoords else pm.polygon
  PolygonManager.clear_states
    { pm with coordinates := newCoords, polygon := newPolygon }

/-- `PolygonManager.__init__(coordinates, area_name)`. -/
def mkPolygonManager (coordinates : List QPoint) (area_name : String) :
    PolygonManager :=
  let pm : PolygonManager :=
    { coordinates := coordinates, area_name := area_name,
      polygon := none, previous_states := [] }
  if 3 ≤ coordinates.length then
    pm.update_polygon coordinates none none
  else pm

/-- `PolygonManager.is_point_inside(x, y)`. -/
def PolygonManager.is_point_inside (pm : PolygonManager) (x y : ℚ) : Bool :=
  match pm.polygon with
  | none => false
  | some vs =>
    if pm.coordinates.length < 3 then false
    else shapelyContains vs (x, y)

/-- `PolygonManager.check_entry_exit(track_id, current_inside)`: the event
(`"entry"`, `"exit"` or none) together with the updated manager (the
stored state is always overwritten with the current observation). -/
def PolygonManager.check_entry_exit (pm : PolygonManager) (track_id : Nat)
    (current_inside : Bool) : Option String × PolygonManager :=
  let event : Option String :=
    match lookupState pm.previous_states track_id with
    | none => none
    | some previous_inside =>
      if !previous_inside && current_inside then some "entry"
      else if previous_inside && !current_inside then some "exit"
      else none
  (event, { pm with
    previous_states := insertState pm.previous_states track_id current_inside })

/-- Specification-side event table, written from the spec's words for
`check_transition`: no prior record ⇒ no event; `false → true` ⇒ Entry;
`true → false` ⇒ Exit; otherwise no event. -/
def eventSpec (prev : Option Bool) (cur : Bool) : Option String :=
  match prev, cur with
  | none, _ => none
  | some false, true => some "entry"
  | some true, false => some "exit"
  | some _, _ => none

/-! ## Occupancy counters: `backend/app/routers/video.py` lines 36–39 and
the transition block of `draw_detections_on_frame` (lines 121–153) -/

/-- The module-level counter state of `video.py`: `enter_count`,
`exit_count`, `current_inside` (Python ints) and `prev_inside_state`. -/
structure CounterState where
  enter_count : Int
  exit_count : Int
  current_inside : Int
  prev_inside_state : StateMap
deriving DecidableEq

/-- The initial module state (all counters 0, empty map). -/
def initialCounters : CounterState :=
  { enter_count := 0, exit_count := 0, current_inside := 0,
    prev_inside_state := [] }

/-- The per-tracked-detection transition/counter block of
`draw_detections_on_frame` (video.py lines 135–153), for one observation
`(track_id, in_polygon)`: first observation records the state and bumps
`current_inside` when already inside; `false→true` bumps `enter_count`
and `current_inside`; `true→false` bumps `exit_count` and decrements
`current_inside` clamped at 0. -/
def counterStep (s : CounterState) (obs : Nat × Bool) : CounterState :=
  let track_id := obs.1
  let in_polygon := obs.2
  match lookupState s.prev_inside_state track_id with
  | none =>
    { s with
      prev_inside_state := insertState s.prev_inside_state track_id in_polygon,
      current_inside :=
        if in_polygon then s.current_inside + 1 else s.current_inside }
  | some prev =>
    if !prev && in_polygon then
      { s with
        enter_count := s.enter_count + 1,
        current_inside := s.current_inside + 1,
        prev_inside_state := insertState s.prev_inside_state track_id true }
    else if prev && !in_polygon then
      { s with
        exit_count := s.exit_count + 1,
        current_inside := max 0 (s.current_inside - 1),
        prev_inside_state := insertState s.prev_inside_state track_id false }
    else s

/-- Run the counter block over a sequence of observations from the
process-start state. -/
def runCounters (obsList : List (Nat × Bool)) : CounterState :=
  obsList.foldl counterStep initialCounters

/-! ## Frame source: `backend/core/video_stream.py` -/

/-- Outcomes of the external world during one call to
`VideoStreamHandler.start()`: whether `streamlink.streams` raises,
whether it returns a non-empty stream map, whether `cv2.VideoCapture`
opens on the resolved best URL and on the raw URL, whether the fallback
`cv2.VideoCapture` constructor raises, and whether the background thread
decodes a first frame within the fixed 2-second wait. -/
structure StreamEnv where
  streams_raises : Bool
  streams_found : Bool
  cap_opens_resolved : Bool
  cap_opens_direct : Bool
  fallback_raises : Bool
  first_frame_arrives : Bool
deriving DecidableEq

/-- `VideoStreamHandler.start()` (video_stream.py lines 23–68) as a
function of the environment's outcomes, returning the boolean the source
returns.  Try branch: resolve via streamlink (best URL if found, else the
raw URL), return `False` if the capture did not open, else spawn the
reader thread, sleep 2 seconds, return `True`.  Except branch: direct
`cv2.VideoCapture`; `False` if it raises or does not open, else sleep and
`True`. -/
def VideoStreamHandler.start (env : StreamEnv) : Bool :=
  if !env.streams_raises then
    let opened :=
      if env.streams_found then env.cap_opens_resolved else env.cap_opens_direct
    opened
  else
    if env.fallback_raises then false
    else env.cap_opens_direct

/-- Specification-side characterisation: the capture transport opened on
the path `start()` actually took. -/
def transportOpened (env : StreamEnv) : Bool :=
  if env.streams_raises then !env.fallback_raises && env.cap_opens_direct
  else if env.streams_found then env.cap_opens_resolved
  else env.cap_opens_direct

/-! ## Tracker: `backend/core/tracker.py`

The source keeps three mappings keyed by the same track ids in lockstep:
`objects` (id → centroid, `OrderedDict`), `disappeared` (id → miss
count, `OrderedDict`) and `track_history` (id → centroid list,
`defaultdict`); `register` adds an id to all three and `deregister`
removes it from all three.  The embedding fuses them into one list of
`Track` records in insertion order.  `fullHist` is a ghost field: it
records every centroid ever assigned to the track (what `history` would
be without the 30-entry truncation), is written exactly where `history`
is written and is read by no operation — it exists only so that the
specification can speak about "the full sequence of centroids ever
assigned". -/

/-- One track: id, current centroid, consecutive-miss count, bounded
trajectory history, and the ghost unbounded history. -/
structure Track where
  id : Nat
  centroid : Int × Int
  disappeared : Nat
  history : List (Int × Int)
  fullHist : List (Int × Int)
deriving DecidableEq

/-- `ObjectTracker` state: `next_object_id`, the fused per-id records in
insertion order, and `max_disappeared`. -/
structure ObjectTracker where
  next_object_id : Nat
  tracks : List Track
  max_disappeared : Nat
deriving DecidableEq

/-- `ObjectTracker.__init__(max_disappeared)`. -/
def mkObjectTracker (max_disappeared : Nat) : ObjectTracker :=
  { next_object_id := 0, tracks := [], max_disappeared := max_disappeared }

/-- `ObjectTracker.register(centroid)`: new id at the end of the maps,
miss count 0, history `[centroid]`. -/
def ObjectTracker.register (t : ObjectTracker) (c : Int × Int) : ObjectTracker :=
  { t with
    tracks := t.tracks ++
      [{ id := t.next_object_id, centroid := c, disappeared := 0,
         history := [c], fullHist := [c] }],
    next_object_id := t.next_object_id + 1 }

/-- The history append of a matched track (tracker.py lines 68–70):
append the centroid, then truncate to the last 30 entries when the
length exceeds 30. -/
def pushHistory (h : List (Int × Int)) (c : Int × Int) : List (Int × Int) :=
  let h2 := h ++ [c]
  if 30 < h2.length then h2.drop (h2.length - 30) else h2

/-- Accepted match (tracker.py lines 65–70): set the track's centroid to
the detection centroid, reset its miss count, push onto its history (and
onto the ghost full history). -/
def matchTrack (tracks : List Track) (oid : Nat) (c : Int × Int) : List Track :=
  tracks.map fun tr =>
    if tr.id = oid then
      { tr with
        centroid := c,
        disappeared := 0,
        history := pushHistory tr.history c,
        fullHist := tr.fullHist ++ [c] }
    else tr

/-- Unmatched existing track (tracker.py lines 75–79): increment its miss
count and deregister it when the count passes `max_disappeared`. -/
def ageTrack (maxDis : Nat) (tracks : List Track) (oid : Nat) : List Track :=
  tracks.filterMap fun tr =>
    if tr.id = oid then
      if maxDis < tr.disappeared + 1 then none
      else some { tr with disappeared := tr.disappeared + 1 }
    else some tr

/-- The empty-detections branch of `update` (tracker.py lines 34–39):
every track's miss count is incremented and tracks past the threshold
are deregistered. -/
def emptyStep (t : ObjectTracker) : ObjectTracker :=
  { t with tracks := t.tracks.filterMap fun tr =>
      if t.max_disappeared < tr.disappeared + 1 then none
      else some { tr with disappeared := tr.disappeared + 1 } }

/-- Centroid of one detection (tracker.py lines 43–45): unpacking
`det[:4]` raises when the detection has fewer than 4 entries, else the
centroid is the truncated midpoint of the box. -/
def detCentroid (det : List Int) : Except String (Int × Int) :=
  match det with
  | x1 :: y1 :: x2 :: y2 :: _ => .ok ((x1 + x2).tdiv 2, (y1 + y2).tdiv 2)
  | _ => .error "not enough values to unpack"

/-- Sequential effectful map: the Python `for` loop, stopping at the
first raised exception. -/
def mapExcept {α β : Type} (f : α → Except String β) :
    List α → Except String (List β)
  | [] => .ok []
  | a :: l =>
    match f a with
    | .error e => .error e
    | .ok b =>
      match mapExcept f l with
      | .error e => .error e
      | .ok bs => .ok (b :: bs)

/-- Squared Euclidean distance over ℤ (stands for the float distances of
`cdist` / `np.linalg.norm`; order- and gate-exact on integer inputs). -/
def distSq (a b : Int × Int) : Int :=
  (a.1 - b.1) * (a.1 - b.1) + (a.2 - b.2) * (a.2 - b.2)

/-- Stable insertion into an ascending-by-key index list (equal keys keep
the earlier-inserted index first). -/
def insertSorted (key : Nat → Int) (i : Nat) : List Nat → List Nat
  | [] => [i]
  | j :: rest =>
    if key j ≤ key i then j :: insertSorted key i rest else i :: j :: rest

/-- `np.argsort` over the given indices by `key` (modelled as a stable
ascending sort; the source leaves tie order unspecified). -/
def argsortBy (key : Nat → Int) (idxs : List Nat) : List Nat :=
  idxs.foldl (fun acc i => insertSorted key i acc) []

/-- `D.argmin(axis=1)` for row `r`: first column index attaining the row
minimum. -/
def argminRow (D : Nat → Nat → Int) (nCols : Nat) (r : Nat) : Nat :=
  (List.range nCols).foldl (fun best c => if D r c < D r best then c else best) 0

/-- The greedy acceptance loop over `(row, col)` pairs (tracker.py lines
61–72): skip a pair whose row or column is consumed, accept it when the
distance is under the 100 px gate (squared: 10000), marking both
consumed. -/
def greedyAssign (D : Nat → Nat → Int) (oids : List Nat)
    (inCs : List (Int × Int)) :
    List (Nat × Nat) → List Track → List Nat → List Nat →
      List Track × List Nat × List Nat
  | [], tracks, usedRows, usedCols => (tracks, usedRows, usedCols)
  | (row, col) :: rest, tracks, usedRows, usedCols =>
    if usedRows.contains row || usedCols.contains col then
      greedyAssign D oids inCs rest tracks usedRows usedCols
    else if D row col < 10000 then
      greedyAssign D oids inCs rest
        (matchTrack tracks (oids.getD row 0) (inCs.getD col (0, 0)))
        (row :: usedRows) (col :: usedCols)
    else
      greedyAssign D oids inCs rest tracks usedRows usedCols

/-- `ObjectTracker.update(detections)` (tracker.py lines 32–85).  Empty
detections: age every track.  Otherwise compute the detection centroids
(raising on a short detection), register them all if no track exists,
else run the distance-matrix greedy matching, age the unmatched rows and
register the unmatched columns (in ascending index order). -/
def ObjectTracker.update (t : ObjectTracker) (detections : List (List Int)) :
    Except String ObjectTracker :=
  if detections.length = 0 then
    .ok (emptyStep t)
  else
    match mapExcept detCentroid detections with
    | .error e => .error e
    | .ok inCs =>
      if t.tracks.length = 0 then
        .ok (inCs.foldl ObjectTracker.register t)
      else
        let oids := t.tracks.map Track.id
        let objCs := t.tracks.map Track.centroid
        let nRows := objCs.length
        let nCols := inCs.length
        let D : Nat → Nat → Int :=
          fun r c => distSq (objCs.getD r (0, 0)) (inCs.getD c (0, 0))
        let rowMinKey : Nat → Int :=
          fun r => ((List.range nCols).map (D r)).foldl min (D r 0)
        let rows := argsortBy rowMinKey (List.range nRows)
        let pairs := rows.map fun r => (r, argminRow D nCols r)
        let assigned := greedyAssign D oids inCs pairs t.tracks [] []
        let usedRows := assigned.2.1
        let usedCols := assigned.2.2
        let unusedRows := (List.range nRows).filter fun r => !usedRows.contains r
        let tracks2 := unusedRows.foldl
          (fun ts r => ageTrack t.max_disappeared ts (oids.getD r 0)) assigned.1
        let unusedCols := (List.range nCols).filter fun c => !usedCols.contains c
        .ok (unusedCols.foldl
          (fun acc c => acc.register (inCs.getD c (0, 0)))
          { t with tracks := tracks2 })

/-- The nearest-centroid re-association of one detection in
`get_tracks_with_boxes` (tracker.py lines 93–105): unpacking `det[:5]`
raises when the detection has fewer than 5 entries; otherwise scan the
tracked objects in order keeping the strictly-closest one within the
50 px gate (squared: 2500), and emit the labelled row if any matched. -/
def relabelDet (tracked : List (Nat × (Int × Int))) (det : List Int) :
    Except String (Option (List Int)) :=
  match det with
  | x1 :: y1 :: x2 :: y2 :: conf :: _ =>
    let cx := (x1 + x2).tdiv 2
    let cy := (y1 + y2).tdiv 2
    let best := tracked.foldl
      (fun (acc : Option Int × Option Nat) ob =>
        let d := distSq (cx, cy) ob.2
        match acc.1 with
        | none => if d < 2500 then (some d, some ob.1) else acc
        | some m => if d < m ∧ d < 2500 then (some d, some ob.1) else acc)
      (none, none)
    match best.2 with
    | some oid => .ok (some [x1, y1, x2, y2, conf, (oid : Int)])
    | none => .ok none
  | _ => .error "not enough values to unpack"

/-- `ObjectTracker.get_tracks_with_boxes(detections)` (tracker.py lines
87–106): empty input gives an empty list; otherwise run `update`, then
re-associate every detection against the resulting id → centroid map,
dropping detections with no track within the gate.  Returns the labelled
rows `[x1, y1, x2, y2, conf, track_id]` together with the updated
tracker state. -/
def ObjectTracker.get_tracks_with_boxes (t : ObjectTracker)
    (detections : List (List Int)) :
    Except String (List (List Int) × ObjectTracker) :=
  if detections.length = 0 then .ok ([], t)
  else
    match t.update detections with
    | .error e => .error e
    | .ok t' =>
      let tracked := t'.tracks.map fun tr => (tr.id, tr.centroid)
      match mapExcept (relabelDet tracked) detections with
      | .error e => .error e
      | .ok rows => .ok (rows.filterMap id, t')

/-- One pipeline cycle's effect on the tracker: the caller's frame loop
catches and logs a raised exception, keeping the tracker as `update`
left it (`update` raises only while reading the detection list, before
any state is written). -/
def applyDet (t : ObjectTracker) (ds : List (List Int)) : ObjectTracker :=
  match t.update ds with
  | .ok t' => t'
  | .error _ => t

/-- A whole run: fold any sequence of per-cycle detection lists over a
fresh tracker. -/
def runUpdates (max_disappeared : Nat) (dss : List (List (List Int))) :
    ObjectTracker :=
  dss.foldl applyDet (mkObjectTracker max_disappeared)

/-- Iterate `update` with empty detection lists (`n` consecutive cycles
in which the track's detection is absent). -/
def iterEmpty (t : ObjectTracker) : Nat → ObjectTracker
  | 0 => t
  | n + 1 =>
    match (iterEmpty t n).update [] with
    | .ok t' => t'
    | .error _ => iterEmpty t n

/-- The track produced by one cycle on the detection box `[0,0,10,10]`
(used by concrete instantiations below). -/
def singleTrack : Track := ⟨0, (5, 5), 0, [(5, 5)], [(5, 5)]⟩

/-- The polygon manager of the C10 witness: the axis-aligned square with
vertices (0,0), (4,0), (4,4), (0,4). -/
def squarePM : PolygonManager :=
  mkPolygonManager [(0, 0), (4, 0), (4, 4), (0, 4)] "default"

/-- The environment of the C6 counterexample: `streamlink.streams`
returns a usable stream, the capture opens, but no frame is decoded
within the 2-second wait. -/
def noFrameEnv : StreamEnv :=
  { streams_raises := false, streams_found := true, cap_opens_resolved := true,
    cap_opens_direct := true, fallback_raises := false,
    first_frame_arrives := false }

/-- The C4 scenario's first cycle: a fresh tracker registering tracks at
centroids (10,10) and (500,500). -/
def scenarioStep1 : Except String ObjectTracker :=
  (mkObjectTracker 30).update [[0, 0, 20, 20], [480, 480, 520, 520]]

/-- The C4 scenario's second cycle: detections with centroids (15,15)
and (800,800). -/
def scenarioStep2 : Except String ObjectTracker :=
  match scenarioStep1 with
  | .ok t => t.update [[5, 5, 25, 25], [790, 790, 810, 810]]
  | .error e => .error e

/-- The concrete tracker of the C3 witness: one track with id 0 and miss
count 0, threshold `max_disappeared = 2`. -/
def oneTrackTracker : ObjectTracker :=
  { next_object_id := 1,
    tracks := [{ id := 0, centroid := (5, 5), disappeared := 0,
                 history := [(5, 5)], fullHist := [(5, 5)] }],
    max_disappeared := 2 }

/-- The per-track history invariant: the bounded history is exactly the
suffix of the last (at most) 30 of all centroids ever assigned. -/
def histInvariant (tr : Track) : Prop :=
  tr.history = tr.fullHist.drop (tr.fullHist.length - 30)

/-! ## Helper lemmas -/

theorem lookupState_insertState_self (s : StateMap) (tid : Nat) (b : Bool) :
    lookupState (insertState s tid b) tid = some b := by
  induction s with
  | nil => simp [insertState, lookupState]
  | cons kv rest ih =>
    obtain ⟨k, v⟩ := kv
    by_cases hk : k = tid
    · simp [insertState, lookupState, hk]
    · simp [insertState, lookupState, hk, ih]

/-! ## C1 -/

/-- C1: for every track id and membership observation, `check_entry_exit`
emits exactly the event the spec's transition table prescribes — no event
when the id has no stored membership (first observation), Entry exactly
on a stored-false/observed-true flip, Exit exactly on the converse flip,
nothing on a repeated identical observation — and the stored membership
for that id is always overwritten with the current observation. -/
theorem check_entry_exit_matches_spec (pm : PolygonManager) (track_id : Nat)
    (cur : Bool) :
    (pm.check_entry_exit track_id cur).1 =
      eventSpec (lookupState pm.previous_states track_id) cur ∧
    lookupState (pm.check_entry_exit track_id cur).2.previous_states track_id =
      some cur := by
  constructor
  · unfold PolygonManager.check_entry_exit eventSpec
    cases h : lookupState pm.previous_states track_id with
    | none => simp [h]
    | some prev => cases prev <;> cases cur <;> simp [h]
  · unfold PolygonManager.check_entry_exit
    exact lookupState_insertState_self _ _ _

/-! ## C2 -/

/-- C2: every call to `update_polygon` (any coordinates, with or without
rescaling) leaves the per-track membership map empty, so the very next
`check_entry_exit` observation for any track id and any membership value
emits no event. -/
theorem update_polygon_clears_states (pm : PolygonManager)
    (coords : List QPoint) (frame_size original_size : Option (ℚ × ℚ))
    (track_id : Nat) (cur : Bool) :
    (pm.update_polygon coords frame_size original_size).previous_states = [] ∧
    ((pm.update_polygon coords frame_size original_size).check_entry_exit
        track_id cur).1 = none := by
  constructor
  · rfl
  · unfold PolygonManager.check_entry_exit
    have h : (pm.update_polygon coords frame_size original_size).previous_states
        = [] := rfl
    simp [h, lookupState]

/-! ## C10 -/

/-- C10: with a configured polygon of at least 3 vertices,
`is_point_inside` returns `false` at every point of the polygon's
boundary (in particular at each vertex): the modelled `contains` test is
strict, so boundary points are classified as outside. -/
theorem boundary_point_not_inside (pm : PolygonManager) (vs : List QPoint)
    (x y : ℚ) (hpoly : pm.polygon = some vs) (h3 : 3 ≤ vs.length)
    (hb : onBoundary vs (x, y) = true) :
    pm.is_point_inside x y = false := by
  unfold PolygonManager.is_point_inside
  rw [hpoly]
  by_cases hlen : pm.coordinates.length < 3
  · simp [hlen]
  · simp [hlen, shapelyContains, hb]

/-- Witness for C10 at a concrete input: the square's own vertex (0,0)
is on the boundary, and `is_point_inside` classifies it as outside. -/
theorem boundary_point_not_inside_witness :
    squarePM.is_point_inside 0 0 = false :=
  boundary_point_not_inside squarePM [(0, 0), (4, 0), (4, 4), (0, 4)] 0 0
    rfl (by decide)
    (by simp [onBoundary, polygonEdges, onSegment, List.rotate])

/-! ## C5 -/

theorem counterStep_nonneg (s : CounterState) (obs : Nat × Bool)
    (h : 0 ≤ s.current_inside) : 0 ≤ (counterStep s obs).current_inside := by
  obtain ⟨tid, inp⟩ := obs
  unfold counterStep
  dsimp only
  cases hl : lookupState s.prev_inside_state tid with
  | none => cases inp <;> simp <;> omega
  | some prev => cases prev <;> cases inp <;> simp <;> omega

theorem counterStep_mono (s : CounterState) (obs : Nat × Bool) :
    s.enter_count ≤ (counterStep s obs).enter_count ∧
    s.exit_count ≤ (counterStep s obs).exit_count := by
  obtain ⟨tid, inp⟩ := obs
  unfold counterStep
  dsimp only
  cases hl : lookupState s.prev_inside_state tid with
  | none => cases inp <;> simp
  | some prev => cases prev <;> cases inp <;> simp <;> omega

theorem foldl_counterStep_nonneg (l : List (Nat × Bool)) (s : CounterState)
    (h : 0 ≤ s.current_inside) : 0 ≤ (l.foldl counterStep s).current_inside := by
  induction l generalizing s with
  | nil => exact h
  | cons obs rest ih =>
    exact ih (counterStep s obs) (counterStep_nonneg s obs h)

theorem foldl_counterStep_mono (l : List (Nat × Bool)) (s : CounterState) :
    s.enter_count ≤ (l.foldl counterStep s).enter_count ∧
    s.exit_count ≤ (l.foldl counterStep s).exit_count := by
  induction l generalizing s with
  | nil => exact ⟨le_refl _, le_refl _⟩
  | cons obs rest ih =>
    refine ⟨le_trans (counterStep_mono s obs).1 (ih (counterStep s obs)).1,
      le_trans (counterStep_mono s obs).2 (ih (counterStep s obs)).2⟩

/-- C5: along any sequence of per-track membership observations processed
by the counter block of `draw_detections_on_frame`, `current_inside` is
never negative (the decrement is clamped at 0), and `enter_count` and
`exit_count` never decrease from one cycle to a later one. -/
theorem counters_nonneg_and_monotone (pre post : List (Nat × Bool)) :
    0 ≤ (runCounters (pre ++ post)).current_inside ∧
    (runCounters pre).enter_count ≤ (runCounters (pre ++ post)).enter_count ∧
    (runCounters pre).exit_count ≤ (runCounters (pre ++ post)).exit_count := by
  unfold runCounters
  rw [List.foldl_append]
  refine ⟨foldl_counterStep_nonneg post _ ?_,
    (foldl_counterStep_mono post _).1, (foldl_counterStep_mono post _).2⟩
  exact foldl_counterStep_nonneg pre initialCounters (le_refl 0)

/-! ## C6 -/

/-- Counterexample to C6: the capture opens but no frame arrives within
the bounded wait, and `start()` still returns success — the source
checks only `cap.isOpened()`, sleeps a fixed 2 seconds, and never tests
whether a frame arrived. -/
theorem start_succeeds_without_first_frame :
    VideoStreamHandler.start noFrameEnv = true ∧
    noFrameEnv.first_frame_arrives = false := ⟨rfl, rfl⟩

/-- C6 as amended: `start()` waits a fixed bound after opening, but its
result is independent of whether a first frame arrived within that
bound; it reports success exactly when the capture transport opened on
the path taken (streamlink-resolved, direct, or the direct fallback
after an exception), and reports failure by returning `False` rather
than raising. -/
theorem start_success_independent_of_first_frame (env : StreamEnv) (b : Bool) :
    VideoStreamHandler.start { env with first_frame_arrives := b } =
      VideoStreamHandler.start env ∧
    VideoStreamHandler.start env = transportOpened env := by
  constructor
  · rfl
  · unfold VideoStreamHandler.start transportOpened
    cases h : env.streams_raises <;> simp [h]

/-! ## C4 -/

/-- C4: from tracks at (10,10) and (500,500), one `update` on detections
with centroids (15,15) and (800,800) under the 100 px gate moves track 0
to (15,15) with miss count reset, leaves track 1 at (500,500) with its
miss count incremented to 1 (unmatched: distance ≈ 424 > 100), and
registers (800,800) as the fresh monotonically assigned id 2 (the next
id counter advancing to 3). -/
theorem greedy_matching_scenario :
    (match scenarioStep2 with
      | .ok t => some
          (t.next_object_id, t.tracks.map fun tr => (tr.id, tr.centroid, tr.disappeared))
      | .error _ => none) =
      some (3, [(0, (15, 15), 0), (1, (500, 500), 1), (2, (800, 800), 0)]) := by
  rfl

/-! ## C9 -/

/-- C9: a concrete detection list on which `get_tracks_with_boxes`
returns two entries labelled with the same track id 0: both detections
have centroid (10,10), `update` registers two tracks there, and the
secondary nearest-centroid pass (which never marks a track as consumed)
labels both boxes with the first track within the 50 px gate. -/
theorem duplicate_track_id_emitted :
    (match (mkObjectTracker 30).get_tracks_with_boxes
        [[0, 0, 20, 20, 9], [1, 1, 19, 19, 9]] with
      | .ok r => some r.1
      | .error _ => none) =
      some [[0, 0, 20, 20, 9, 0], [1, 1, 19, 19, 9, 0]] := by
  rfl

/-! ## C8 -/

/-- Counterexample to C8: a detection with exactly 4 box coordinates (no
confidence entry) satisfies the claim's hypothesis, passes `update`
untouched, yet makes `get_tracks_with_boxes` raise: the source unpacks
`det[:5]` into five names, which needs at least 5 entries. -/
theorem four_element_detection_raises :
    (∀ d ∈ ([[0, 0, 10, 10]] : List (List Int)), 4 ≤ d.length) ∧
    (∃ t', (mkObjectTracker 30).update [[0, 0, 10, 10]] = .ok t') ∧
    (mkObjectTracker 30).get_tracks_with_boxes [[0, 0, 10, 10]] =
      .error "not enough values to unpack" := by
  refine ⟨?_, ⟨_, rfl⟩, rfl⟩
  intro d hd
  rw [List.mem_singleton] at hd
  subst hd
  decide

theorem detCentroid_total (det : List Int) (h : 4 ≤ det.length) :
    ∃ c, detCentroid det = .ok c := by
  match det, h with
  | x1 :: y1 :: x2 :: y2 :: rest, _ => exact ⟨_, rfl⟩

theorem relabelDet_total (tracked : List (Nat × (Int × Int))) (det : List Int)
    (h : 5 ≤ det.length) : ∃ r, relabelDet tracked det = .ok r := by
  match det, h with
  | x1 :: y1 :: x2 :: y2 :: conf :: rest, _ =>
    unfold relabelDet
    dsimp only
    split <;> exact ⟨_, rfl⟩

theorem mapExcept_total {α β : Type} (f : α → Except String β) (l : List α)
    (h : ∀ a ∈ l, ∃ b, f a = .ok b) : ∃ bs, mapExcept f l = .ok bs := by
  induction l with
  | nil => exact ⟨[], rfl⟩
  | cons a rest ih =>
    obtain ⟨b, hb⟩ := h a (List.mem_cons_self a rest)
    obtain ⟨bs, hbs⟩ := ih fun x hx => h x (List.mem_cons_of_mem a hx)
    exact ⟨b :: bs, by simp [mapExcept, hb, hbs]⟩

theorem update_total (t : ObjectTracker) (dets : List (List Int))
    (h : ∀ d ∈ dets, 4 ≤ d.length) : ∃ t', t.update dets = .ok t' := by
  unfold ObjectTracker.update
  split
  · exact ⟨_, rfl⟩
  · obtain ⟨cs, hcs⟩ := mapExcept_total detCentroid dets
      fun d hd => detCentroid_total d (h d hd)
    rw [hcs]
    dsimp only
    split <;> exact ⟨_, rfl⟩

/-- C8 as amended: `update` never raises when every detection carries at
least its 4 box coordinates, but `get_tracks_with_boxes` additionally
requires the confidence entry — it never raises exactly when every
detection has at least 5 entries (4 box coordinates plus confidence);
beyond these length requirements no detection is rejected. -/
theorem update_and_relabel_total (t : ObjectTracker) (dets : List (List Int)) :
    ((∀ d ∈ dets, 4 ≤ d.length) → ∃ t', t.update dets = .ok t') ∧
    ((∀ d ∈ dets, 5 ≤ d.length) →
      ∃ r, t.get_tracks_with_boxes dets = .ok r) := by
  refine ⟨update_total t dets, fun h5 => ?_⟩
  unfold ObjectTracker.get_tracks_with_boxes
  split
  · exact ⟨_, rfl⟩
  · obtain ⟨t', ht'⟩ := update_total t dets fun d hd => by
      have := h5 d hd
      omega
    rw [ht']
    dsimp only
    obtain ⟨rows, hrows⟩ := mapExcept_total
      (relabelDet (t'.tracks.map fun tr => (tr.id, tr.centroid))) dets
      fun d hd => relabelDet_total _ d (h5 d hd)
    rw [hrows]
    exact ⟨_, rfl⟩

/-- Witness for C8's amended theorem at a concrete input: one detection
with 5 entries is accepted by both operations. -/
theorem update_and_relabel_total_witness :
    (∃ t', (mkObjectTracker 30).update [[0, 0, 10, 10, 9]] = .ok t') ∧
    (∃ r, (mkObjectTracker 30).get_tracks_with_boxes [[0, 0, 10, 10, 9]] =
      .ok r) :=
  ⟨(update_and_relabel_total (mkObjectTracker 30) [[0, 0, 10, 10, 9]]).1
      (by decide),
    (update_and_relabel_total (mkObjectTracker 30) [[0, 0, 10, 10, 9]]).2
      (by decide)⟩

/-! ## C3 -/

theorem update_nil (t : ObjectTracker) : t.update [] = .ok (emptyStep t) := rfl

theorem iterEmpty_succ (t : ObjectTracker) (n : Nat) :
    iterEmpty t (n + 1) = emptyStep (iterEmpty t n) := by
  simp [iterEmpty, update_nil]

theorem emptyStep_max (t : ObjectTracker) :
    (emptyStep t).max_disappeared = t.max_disappeared := rfl

theorem iterEmpty_max (t : ObjectTracker) (n : Nat) :
    (iterEmpty t n).max_disappeared = t.max_disappeared := by
  induction n with
  | zero => rfl
  | succ n ih => rw [iterEmpty_succ, emptyStep_max, ih]

theorem mem_emptyStep_of_mem (t : ObjectTracker) (tr : Track)
    (htr : tr ∈ t.tracks) (h : tr.disappeared + 1 ≤ t.max_disappeared) :
    { tr with disappeared := tr.disappeared + 1 } ∈ (emptyStep t).tracks := by
  unfold emptyStep
  dsimp only
  rw [List.mem_filterMap]
  exact ⟨tr, htr, by rw [if_neg (by omega)]⟩

theorem mem_iterEmpty_of_mem (t : ObjectTracker) (tr : Track) (n : Nat)
    (htr : tr ∈ t.tracks) (h : tr.disappeared + n ≤ t.max_disappeared) :
    { tr with disappeared := tr.disappeared + n } ∈ (iterEmpty t n).tracks := by
  induction n with
  | zero => simpa using htr
  | succ n ih =>
    rw [iterEmpty_succ]
    have hmem := ih (by omega)
    have hs := mem_emptyStep_of_mem (iterEmpty t n)
      { tr with disappeared := tr.disappeared + n } hmem
      (by rw [iterEmpty_max]; dsimp only; omega)
    simpa [Nat.add_assoc] using hs

theorem mem_emptyStep_le (t : ObjectTracker) (tr' : Track)
    (h : tr' ∈ (emptyStep t).tracks) : tr'.disappeared ≤ t.max_disappeared := by
  unfold emptyStep at h
  dsimp only at h
  rw [List.mem_filterMap] at h
  obtain ⟨a, -, ha⟩ := h
  by_cases hc : t.max_disappeared < a.disappeared + 1
  · rw [if_pos hc] at ha
    exact absurd ha (by simp)
  · rw [if_neg hc] at ha
    rw [← Option.some_inj.mp ha]
    dsimp only
    omega

theorem mem_iterEmpty_shift (t : ObjectTracker) (n : Nat) (tr' : Track)
    (h : tr' ∈ (iterEmpty t n).tracks) :
    ∃ tr ∈ t.tracks, tr'.id = tr.id ∧ tr'.disappeared = tr.disappeared + n := by
  induction n generalizing tr' with
  | zero => exact ⟨tr', h, rfl, by omega⟩
  | succ n ih =>
    rw [iterEmpty_succ] at h
    unfold emptyStep at h
    dsimp only at h
    rw [List.mem_filterMap] at h
    obtain ⟨a, ha, hsome⟩ := h
    by_cases hc : (iterEmpty t n).max_disappeared < a.disappeared + 1
    · rw [if_pos hc] at hsome
      exact absurd hsome (by simp)
    · rw [if_neg hc] at hsome
      obtain ⟨tr, htr, hid, hd⟩ := ih a ha
      rw [← Option.some_inj.mp hsome]
      exact ⟨tr, htr, hid, by dsimp only; omega⟩

/-- C3: a track whose `disappeared` count is 0 (just matched or
registered) survives exactly `max_disappeared` consecutive update cycles
with its detection absent (its record is still present, with the miss
count at `max_disappeared`), and after `max_disappeared + 1` such cycles
it has been deregistered (no remaining record carries its id). -/
theorem track_deregistered_after_max_disappeared (t : ObjectTracker)
    (tr : Track) (htr : tr ∈ t.tracks) (hd : tr.disappeared = 0) :
    (∃ tr' ∈ (iterEmpty t t.max_disappeared).tracks,
      tr'.id = tr.id ∧ tr'.disappeared = t.max_disappeared) ∧
    ∀ tr' ∈ (iterEmpty t (t.max_disappeared + 1)).tracks, tr'.id ≠ tr.id := by
  constructor
  · refine ⟨{ tr with disappeared := tr.disappeared + t.max_disappeared },
      mem_iterEmpty_of_mem t tr t.max_disappeared htr (by omega), rfl, ?_⟩
    dsimp only
    omega
  · intro tr' h' _
    have hle : tr'.disappeared ≤ t.max_disappeared := by
      rw [iterEmpty_succ] at h'
      have h2 := mem_emptyStep_le (iterEmpty t t.max_disappeared) tr' h'
      rwa [iterEmpty_max] at h2
    obtain ⟨tr0, -, -, hshift⟩ :=
      mem_iterEmpty_shift t (t.max_disappeared + 1) tr' h'
    omega

/-- Witness for C3 at a concrete input: with `max_disappeared = 2`, the
track survives 2 absent cycles and is gone after 3. -/
theorem track_deregistered_witness :
    (∃ tr' ∈ (iterEmpty oneTrackTracker oneTrackTracker.max_disappeared).tracks,
      tr'.id = 0 ∧ tr'.disappeared = oneTrackTracker.max_disappeared) ∧
    ∀ tr' ∈ (iterEmpty oneTrackTracker
        (oneTrackTracker.max_disappeared + 1)).tracks, tr'.id ≠ 0 :=
  track_deregistered_after_max_disappeared oneTrackTracker
    { id := 0, centroid := (5, 5), disappeared := 0,
      history := [(5, 5)], fullHist := [(5, 5)] }
    (by decide) (by decide)

/-! ## C7 -/

theorem pushHistory_drop (full : List (Int × Int)) (c : Int × Int) :
    pushHistory (full.drop (full.length - 30)) c =
      (full ++ [c]).drop ((full ++ [c]).length - 30) := by
  unfold pushHistory
  dsimp only
  by_cases h : full.length < 30
  · have h0 : full.length - 30 = 0 := by omega
    rw [h0, List.drop_zero]
    rw [if_neg (by simp; omega)]
    have h1 : (full ++ [c]).length - 30 = 0 := by simp; omega
    rw [h1, List.drop_zero]
  · have hdlen : (full.drop (full.length - 30)).length = 30 := by
      simp [List.length_drop]
      omega
    rw [if_pos (by simp [hdlen])]
    have h2 : (full.drop (full.length - 30) ++ [c]).length - 30 = 1 := by
      simp [hdlen]
    rw [h2]
    rw [List.drop_append_of_le_length (by omega)]
    rw [List.drop_drop]
    rw [List.drop_append_of_le_length (by simp <;> omega)]
    congr 1
    · congr 1
      simp
      omega

theorem histInv_matchTrack (tracks : List Track) (oid : Nat) (c : Int × Int)
    (h : ∀ tr ∈ tracks, histInvariant tr) :
    ∀ tr' ∈ matchTrack tracks oid c, histInvariant tr' := by
  intro tr' htr'
  unfold matchTrack at htr'
  rw [List.mem_map] at htr'
  obtain ⟨tr, htr, rfl⟩ := htr'
  by_cases hid : tr.id = oid
  · rw [if_pos hid]
    unfold histInvariant
    dsimp only
    rw [h tr htr]
    exact pushHistory_drop tr.fullHist c
  · rw [if_neg hid]
    exact h tr htr

theorem histInv_ageTrack (maxd : Nat) (tracks : List Track) (oid : Nat)
    (h : ∀ tr ∈ tracks, histInvariant tr) :
    ∀ tr' ∈ ageTrack maxd tracks oid, histInvariant tr' := by
  intro tr' htr'
  unfold ageTrack at htr'
  rw [List.mem_filterMap] at htr'
  obtain ⟨tr, htr, hsome⟩ := htr'
  by_cases hid : tr.id = oid
  · rw [if_pos hid] at hsome
    by_cases hc : maxd < tr.disappeared + 1
    · rw [if_pos hc] at hsome
      exact absurd hsome (by simp)
    · rw [if_neg hc] at hsome
      rw [← Option.some_inj.mp hsome]
      exact h tr htr
  · rw [if_neg hid] at hsome
    rw [← Option.some_inj.mp hsome]
    exact h tr htr

theorem histInv_greedyAssign (D : Nat → Nat → Int) (oids : List Nat)
    (inCs : List (Int × Int)) (pairs : List (Nat × Nat)) (tracks : List Track)
    (ur uc : List Nat) (h : ∀ tr ∈ tracks, histInvariant tr) :
    ∀ tr' ∈ (greedyAssign D oids inCs pairs tracks ur uc).1,
      histInvariant tr' := by
  induction pairs generalizing tracks ur uc with
  | nil => exact h
  | cons p rest ih =>
    obtain ⟨row, col⟩ := p
    unfold greedyAssign
    by_cases h1 : (ur.contains row || uc.contains col) = true
    · rw [if_pos h1]
      exact ih tracks ur uc h
    · rw [if_neg h1]
      by_cases h2 : D row col < 10000
      · rw [if_pos h2]
        exact ih _ _ _ (histInv_matchTrack tracks (oids.getD row 0)
          (inCs.getD col (0, 0)) h)
      · rw [if_neg h2]
        exact ih tracks ur uc h

theorem histInv_new (t : ObjectTracker) (c : Int × Int) :
    histInvariant ⟨t.next_object_id, c, 0, [c], [c]⟩ := by
  unfold histInvariant
  rfl

theorem histInv_register (t : ObjectTracker) (c : Int × Int)
    (h : ∀ tr ∈ t.tracks, histInvariant tr) :
    ∀ tr' ∈ (t.register c).tracks, histInvariant tr' := by
  intro tr' htr'
  unfold ObjectTracker.register at htr'
  dsimp only at htr'
  rw [List.mem_append] at htr'
  cases htr' with
  | inl hl => exact h tr' hl
  | inr hr =>
    rw [List.mem_singleton] at hr
    subst hr
    exact histInv_new t c

theorem histInv_foldl_register (cs : List (Int × Int)) (t : ObjectTracker)
    (h : ∀ tr ∈ t.tracks, histInvariant tr) :
    ∀ tr' ∈ (cs.foldl ObjectTracker.register t).tracks, histInvariant tr' := by
  induction cs generalizing t with
  | nil => exact h
  | cons c rest ih => exact ih (t.register c) (histInv_register t c h)

theorem histInv_foldl_register' (cols : List Nat) (f : Nat → Int × Int)
    (t : ObjectTracker) (h : ∀ tr ∈ t.tracks, histInvariant tr) :
    ∀ tr' ∈ (cols.foldl (fun acc c => acc.register (f c)) t).tracks,
      histInvariant tr' := by
  induction cols generalizing t with
  | nil => exact h
  | cons c rest ih => exact ih (t.register (f c)) (histInv_register t (f c) h)

theorem histInv_foldl_age (rows : List Nat) (maxd : Nat) (g : Nat → Nat)
    (tracks : List Track) (h : ∀ tr ∈ tracks, histInvariant tr) :
    ∀ tr' ∈ rows.foldl (fun ts r => ageTrack maxd ts (g r)) tracks,
      histInvariant tr' := by
  induction rows generalizing tracks with
  | nil => exact h
  | cons r rest ih => exact ih _ (histInv_ageTrack maxd tracks (g r) h)

theorem histInv_emptyStep (t : ObjectTracker)
    (h : ∀ tr ∈ t.tracks, histInvariant tr) :
    ∀ tr' ∈ (emptyStep t).tracks, histInvariant tr' := by
  intro tr' htr'
  unfold emptyStep at htr'
  dsimp only at htr'
  rw [List.mem_filterMap] at htr'
  obtain ⟨tr, htr, hsome⟩ := htr'
  by_cases hc : t.max_disappeared < tr.disappeared + 1
  · rw [if_pos hc] at hsome
    exact absurd hsome (by simp)
  · rw [if_neg hc] at hsome
    rw [← Option.some_inj.mp hsome]
    exact h tr htr

theorem histInv_update (t : ObjectTracker) (dets : List (List Int))
    (t' : ObjectTracker) (h : ∀ tr ∈ t.tracks, histInvariant tr)
    (hu : t.update dets = .ok t') : ∀ tr' ∈ t'.tracks, histInvariant tr' := by
  unfold ObjectTracker.update at hu
  by_cases hlen : dets.length = 0
  · rw [if_pos hlen] at hu
    injection hu with h2
    subst h2
    exact histInv_emptyStep t h
  · rw [if_neg hlen] at hu
    rcases hmap : mapExcept detCentroid dets with e | inCs <;> rw [hmap] at hu <;>
      dsimp only at hu
    · exact absurd hu (by simp)
    · by_cases htl : t.tracks.length = 0
      · rw [if_pos htl] at hu
        injection hu with h2
        subst h2
        exact histInv_foldl_register inCs t h
      · rw [if_neg htl] at hu
        injection hu with h2
        subst h2
        refine histInv_foldl_register' _ _ _ ?_
        refine histInv_foldl_age _ _ _ _ ?_
        exact histInv_greedyAssign _ _ _ _ _ _ _ h

theorem histInv_applyDet (t : ObjectTracker) (ds : List (List Int))
    (h : ∀ tr ∈ t.tracks, histInvariant tr) :
    ∀ tr' ∈ (applyDet t ds).tracks, histInvariant tr' := by
  unfold applyDet
  rcases hu : t.update ds with e | t'
  · exact h
  · exact histInv_update t ds t' h hu

theorem histInv_runUpdates (dss : List (List (List Int))) (t : ObjectTracker)
    (h : ∀ tr ∈ t.tracks, histInvariant tr) :
    ∀ tr' ∈ (dss.foldl applyDet t).tracks, histInvariant tr' := by
  induction dss generalizing t with
  | nil => exact h
  | cons ds rest ih => exact ih (applyDet t ds) (histInv_applyDet t ds h)

/-- C7: after any sequence of `update` cycles from a fresh tracker, every
track's bounded history is exactly the suffix of the most recent (at
most 30) entries of the full sequence of centroids ever assigned to it —
in particular its length never exceeds 30 and it is a suffix of that
full sequence. -/
theorem history_is_bounded_suffix (max_disappeared : Nat)
    (dss : List (List (List Int))) (tr : Track)
    (htr : tr ∈ (runUpdates max_disappeared dss).tracks) :
    tr.history = tr.fullHist.drop (tr.fullHist.length - 30) ∧
    tr.history.length ≤ 30 ∧ tr.history <:+ tr.fullHist := by
  have hinv : histInvariant tr := by
    refine histInv_runUpdates dss (mkObjectTracker max_disappeared) ?_ tr htr
    intro tr0 htr0
    exact absurd htr0 (by simp [mkObjectTracker])
  refine ⟨hinv, ?_, ?_⟩
  · rw [hinv]
    simp only [List.length_drop]
    omega
  · rw [hinv]
    exact List.drop_suffix _ _

/-- Witness for C7 at a concrete input: one cycle with one detection box
`[0,0,10,10]` yields the single track `singleTrack` with history
`[(5,5)]`, for which the suffix property holds. -/
theorem history_is_bounded_suffix_witness :
    singleTrack.history =
      singleTrack.fullHist.drop (singleTrack.fullHist.length - 30) ∧
    singleTrack.history.length ≤ 30 ∧
    singleTrack.history <:+ singleTrack.fullHist :=
  history_is_bounded_suffix 3 [[[0, 0, 10, 10]]] singleTrack (by decide)
